import Mathlib

/-!
Verification of the height-resolution, visibility, distance, fill-mesh,
draw-command and renderable-back-reference logic of
`Source/Scene/GlobeSurfaceTileProvider.js`.

The JavaScript code is shallowly embedded: JavaScript numbers that can be
NaN are modelled by `JSNum` (a rational value or NaN); `undefined`-able
fields are `Option`s; object mutation is modelled by explicit state
passing; collaborator results (frustum culling, clipping-plane
intersection, horizon occlusion) are oracle inputs carried by the frame
state, matching the spec's treatment of them as external interfaces.
Object identity of quadtree tiles is modelled by numeric ids.
-/

namespace Cesium

/-- A JavaScript `Number` as used for terrain heights: either `NaN` or an
actual (modelled as rational) value. -/
inductive JSNum where
  | nan : JSNum
  | val : ℚ → JSNum
deriving DecidableEq, Repr

/-- JavaScript multiplication: NaN propagates. -/
def JSNum.mul : JSNum → JSNum → JSNum
  | JSNum.val a, JSNum.val b => JSNum.val (a * b)
  | _, _ => JSNum.nan

/-- JavaScript subtraction: NaN propagates. -/
def JSNum.sub : JSNum → JSNum → JSNum
  | JSNum.val a, JSNum.val b => JSNum.val (a - b)
  | _, _ => JSNum.nan

/-- JavaScript `Math.abs`: NaN propagates. -/
def JSNum.abs : JSNum → JSNum
  | JSNum.val a => JSNum.val |a|
  | JSNum.nan => JSNum.nan

/-- JavaScript `<=` comparison: any comparison with NaN is false. -/
def JSNum.le : JSNum → JSNum → Bool
  | JSNum.val a, JSNum.val b => decide (a ≤ b)
  | _, _ => false

/-- JavaScript `>` comparison: any comparison with NaN is false. -/
def JSNum.gt : JSNum → JSNum → Bool
  | JSNum.val a, JSNum.val b => decide (b < a)
  | _, _ => false

/-- The height fields of a `TerrainMesh` (`mesh.minimumHeight` /
`mesh.maximumHeight`), each possibly `undefined`. -/
structure TerrainMeshModel where
  minimumHeight : Option JSNum
  maximumHeight : Option JSNum
deriving DecidableEq, Repr

/-- The declared height fields of raw terrain data
(`terrainData._minimumHeight` / `terrainData._maximumHeight`), each
possibly `undefined`. -/
structure TerrainDataModel where
  minimumHeight : Option JSNum
  maximumHeight : Option JSNum
deriving DecidableEq, Repr

/-- The fields of a `GlobeSurfaceTile` (the per-tile surface state) that
the height/distance/visibility functions read or write.  Heights kept in
`tileBoundingRegion` are a pair (minimumHeight, maximumHeight).
`boundingVolumeSourceTile` stores the identity (id) of the source tile, or
`none` for `undefined`. -/
structure GlobeSurfaceTile where
  mesh : Option TerrainMeshModel := none
  terrainData : Option TerrainDataModel := none
  bvh : Option (JSNum × JSNum) := none
  tileBoundingRegion : Option (JSNum × JSNum) := none
  boundingVolumeSourceTile : Option ℕ := none
  orientedBoundingBoxDefined : Bool := false
  occludeePointDefined : Bool := false
deriving DecidableEq, Repr

/-- A fresh `new GlobeSurfaceTile()`: every field `undefined`. -/
instance : Inhabited GlobeSurfaceTile := ⟨{}⟩

/-- One node of the quadtree: its object identity (id) and its attached
surface state (`tile.data`, possibly `undefined`). -/
structure TileNode where
  id : ℕ
  data : Option GlobeSurfaceTile
deriving DecidableEq, Repr

/-- A quadtree tile together with its (finite) parent chain, nearest
ancestor first.  `tile.parent` is the head of `parents`. -/
structure QuadtreeTile where
  node : TileNode
  parents : List TileNode
deriving DecidableEq, Repr

def QuadtreeTile.id (t : QuadtreeTile) : ℕ := t.node.id

def QuadtreeTile.data (t : QuadtreeTile) : Option GlobeSurfaceTile := t.node.data

/-- The tiles of a parent chain, as full `QuadtreeTile` values. -/
def mkAncestors : List TileNode → List QuadtreeTile
  | [] => []
  | n :: rest => ⟨n, rest⟩ :: mkAncestors rest

/-- The strict ancestors of a tile, nearest first. -/
def QuadtreeTile.ancestors (t : QuadtreeTile) : List QuadtreeTile :=
  mkAncestors t.parents

/-- The tile followed by its strict ancestors, in parent order. -/
def chainTiles (t : QuadtreeTile) : List QuadtreeTile :=
  t :: t.ancestors

/-- Lines 853-858: min/max heights of the tile's own finished mesh, when
the mesh and both of its height fields are defined. -/
def meshHeights (st : GlobeSurfaceTile) : Option (JSNum × JSNum) :=
  match st.mesh with
  | some m =>
    match m.minimumHeight, m.maximumHeight with
    | some mn, some mx => some (mn, mx)
    | _, _ => none
  | none => none

/-- Lines 860/890: the declared (unscaled) heights of the tile's raw
terrain data, when the terrain data and both of its height fields are
defined. -/
def terrainDataRawHeights (st : GlobeSurfaceTile) : Option (JSNum × JSNum) :=
  match st.terrainData with
  | some td =>
    match td.minimumHeight, td.maximumHeight with
    | some mn, some mx => some (mn, mx)
    | _, _ => none
  | none => none

/-- Modelled from the spec: `GlobeSurfaceTile.prototype.getBvh` (defined in
`GlobeSurfaceTile.js`, which is not part of the provided sources) returns
the tile's cached height-extent summary, i.e. the `_bvh` field ("a cached
height-extent summary for the tile if already computed"). -/
def getBvh (st : GlobeSurfaceTile) : Option (JSNum × JSNum) :=
  st.bvh

/-- Lines 868/898: the raw BVH height summary, accepted only when present
and with both entries not NaN (the source tests `bvh[0] === bvh[0]`, the
JavaScript NaN self-equality check). -/
def bvhRawHeights (st : GlobeSurfaceTile) : Option (JSNum × JSNum) :=
  match getBvh st with
  | some (b0, b1) =>
    if b0 ≠ JSNum.nan ∧ b1 ≠ JSNum.nan then some (b0, b1) else none
  | none => none

/-- Multiply both heights by the terrain exaggeration factor (lines
862-863, 870-871, 892-893, 899-900). -/
def scaleHeights (exaggeration : JSNum) (p : JSNum × JSNum) : JSNum × JSNum :=
  (p.1.mul exaggeration, p.2.mul exaggeration)

/-- Lines 860-865 / 890-895: terrain-data heights, scaled by the terrain
exaggeration factor. -/
def terrainDataHeights (exaggeration : JSNum) (st : GlobeSurfaceTile) :
    Option (JSNum × JSNum) :=
  (terrainDataRawHeights st).map (scaleHeights exaggeration)

/-- Lines 867-873 / 897-902: BVH heights, scaled by the terrain
exaggeration factor. -/
def bvhHeights (exaggeration : JSNum) (st : GlobeSurfaceTile) :
    Option (JSNum × JSNum) :=
  (bvhRawHeights st).map (scaleHeights exaggeration)

/-- The three height sources of `updateTileBoundingRegion`, tried in
order: mesh heights, terrain-data heights, BVH heights.  Used identically
for the tile itself (lines 853-873, via `getBvh`) and for each ancestor
(lines 883-902, via the `_bvh` field, which `getBvh` is modelled to
return). -/
def heightsFromTile (exaggeration : JSNum) (st : GlobeSurfaceTile) :
    Option (JSNum × JSNum) :=
  match meshHeights st with
  | some h => some h
  | none =>
    match terrainDataHeights exaggeration st with
    | some h => some h
    | none => bvhHeights exaggeration st

/-- Lines 879-905: the ancestor walk.  Ancestors whose surface state is
`undefined` are skipped; the first ancestor providing any height source
wins and is returned together with the heights it provided. -/
def ancestorHeightSource (exaggeration : JSNum) :
    List TileNode → Option (QuadtreeTile × JSNum × JSNum)
  | [] => none
  | n :: rest =>
    match n.data with
    | none => ancestorHeightSource exaggeration rest
    | some ast =>
      match heightsFromTile exaggeration ast with
      | some (mn, mx) => some (⟨n, rest⟩, mn, mx)
      | none => ancestorHeightSource exaggeration rest

/-- Lines 833-908, `updateTileBoundingRegion`: resolve the tile's height
range.  Returns the source tile actually used (`none` when unresolved)
and the final (minimumHeight, maximumHeight) stored in the tile's
bounding region: the source's heights on success, (NaN, NaN) on failure
(lines 876-877).  A tile whose surface state is `undefined` gets a fresh
one (lines 835-837). -/
def updateTileBoundingRegion (exaggeration : JSNum) (tile : QuadtreeTile) :
    Option QuadtreeTile × JSNum × JSNum :=
  let st := tile.data.getD default
  match heightsFromTile exaggeration st with
  | some (mn, mx) => (some tile, mn, mx)
  | none =>
    match ancestorHeightSource exaggeration tile.parents with
    | some (a, mn, mx) => (some a, mn, mx)
    | none => (none, JSNum.nan, JSNum.nan)

/-- The height resolution as worded by the spec: scan the tile followed
by its ancestors in parent order and take the first tile whose state
provides any of the three height sources. -/
def resolveHeightRangeSpec (exaggeration : JSNum) (tile : QuadtreeTile) :
    Option (QuadtreeTile × JSNum × JSNum) :=
  (chainTiles tile).findSome? fun a =>
    (heightsFromTile exaggeration (a.data.getD default)).map fun h => (a, h.1, h.2)

/-- A present height pair is an actual (non-NaN) ordered pair; an absent
one is unconstrained.  (`JSNum.le` is true only on two non-NaN values in
order.) -/
def heightPairOrdered : Option (JSNum × JSNum) → Bool
  | some (mn, mx) => mn.le mx
  | none => true

/-- Decidable well-formedness of a tile's raw height data: each present
height source declares an actual (non-NaN) ordered pair.  A BVH whose
entries are NaN is a legitimate "not computed" sentinel and is not
constrained (`bvhRawHeights` already rejects it). -/
def wfData (st : GlobeSurfaceTile) : Bool :=
  heightPairOrdered (meshHeights st) &&
  heightPairOrdered (terrainDataRawHeights st) &&
  heightPairOrdered (bvhRawHeights st)

/-- `Intersect` results of the external culling/clipping collaborators. -/
inductive Intersect where
  | OUTSIDE
  | INTERSECTING
  | INSIDE
deriving DecidableEq, Repr

/-- Tile visibility classification. -/
inductive Visibility where
  | NONE
  | PARTIAL
  | FULL
deriving DecidableEq, Repr

/-- `computeTileVisibility` returns the `Intersect` produced by the
culling volume directly as a `Visibility`; the two enumerations
correspond value for value (OUTSIDE/NONE = -1, INTERSECTING/PARTIAL = 0,
INSIDE/FULL = 1). -/
def visibilityOfIntersect : Intersect → Visibility
  | Intersect.OUTSIDE => Visibility.NONE
  | Intersect.INTERSECTING => Visibility.PARTIAL
  | Intersect.INSIDE => Visibility.FULL

/-- Scene modes. -/
inductive SceneMode where
  | SCENE2D
  | COLUMBUS_VIEW
  | SCENE3D
  | MORPHING
deriving DecidableEq, Repr

/-- The parts of the frame state read by `computeDistanceToTile` and
`computeTileVisibility`.  Results of the external collaborators (the fog
opacity function, the clipping-plane and frustum intersection tests, the
horizon-occlusion test, and whether `computeHorizonCullingPoint` yields a
point) are oracle inputs, matching the spec's treatment of them as
external interfaces. -/
structure FrameState where
  terrainExaggeration : JSNum
  /-- `frameState.camera.positionCartographic.height`. -/
  cameraHeight : JSNum
  /-- Modelled from the spec: the squared horizontal distance from the
  camera to the tile's rectangle, the height-independent part of
  `TileBoundingRegion.prototype.distanceToCamera` (that function lives in
  `TileBoundingRegion.js`, which is not part of the provided sources). -/
  horizontalDistanceSq : ℚ
  fogEnabled : Bool
  fogDensity : ℚ
  /-- Modelled from the spec: `CesiumMath.fog`, the atmospheric fog
  opacity at a given distance and density (defined in `Core/Math.js`,
  which is not part of the provided sources). -/
  fogOpacity : JSNum → ℚ → ℚ
  mode : SceneMode
  clippingPlanesDefined : Bool
  clippingPlanesEnabled : Bool
  /-- Oracle: `clippingPlanes.computeIntersectionWithBoundingVolume`. -/
  clippingIntersection : Intersect
  /-- Oracle: `cullingVolume.computeVisibility`. -/
  cullingIntersection : Intersect
  /-- `frameState.camera.frustum instanceof OrthographicFrustum`. -/
  orthographicFrustum : Bool
  /-- Oracle: `occluders.ellipsoid.isScaledSpacePointVisible`. -/
  occludeeVisible : Bool
  /-- Oracle: whether `computeOccludeePoint` (i.e.
  `computeHorizonCullingPoint`) produces a defined point. -/
  computedOccludeeDefined : Bool

/-- Modelled from the spec: the distance from the camera's height to the
height interval [mn, mx] (zero when the camera height is inside it). -/
def heightIntervalDistance (mn mx h : ℚ) : ℚ :=
  max 0 (max (mn - h) (h - mx))

/-- Modelled from the spec: `TileBoundingRegion.prototype.distanceToCamera`
restricted to what the claims need: a combination, monotone in each part,
of the squared horizontal distance to the tile's rectangle and the
distance from the camera's height to the region's height interval (the
square root is omitted; it is order-preserving).  NaN heights propagate
to a NaN distance. -/
def distanceToCameraModel (fs : FrameState) (mn mx : JSNum) : JSNum :=
  match mn, mx, fs.cameraHeight with
  | JSNum.val a, JSNum.val b, JSNum.val h =>
    JSNum.val (fs.horizontalDistanceSq + (heightIntervalDistance a b h) ^ 2)
  | _, _, _ => JSNum.nan

/-- Lines 772-831, `computeDistanceToTile`: resolve the tile's height
range; when unresolved return the sentinel distance 9999999999 without
touching the bounding-volume state; otherwise refresh the bounding volume
and occludee point when the source tile changed, temporarily collapse the
height range to the endpoint farther from the camera's height when the
source is not the tile itself, measure the distance, and restore the
resolved heights.  Returns the distance and the tile's surface state
after the call. -/
def computeDistanceToTile (fs : FrameState) (tile : QuadtreeTile) :
    JSNum × GlobeSurfaceTile :=
  let upd := updateTileBoundingRegion fs.terrainExaggeration tile
  let mn := upd.2.1
  let mx := upd.2.2
  let st0 := tile.data.getD default
  let st1 := { st0 with tileBoundingRegion := some (mn, mx) }
  match upd.1 with
  | none => (JSNum.val 9999999999, st1)
  | some src =>
    let st2 :=
      if st1.boundingVolumeSourceTile ≠ some src.id then
        { st1 with
            boundingVolumeSourceTile := some src.id,
            orientedBoundingBoxDefined := true,
            occludeePointDefined := fs.computedOccludeeDefined }
      else st1
    let collapsed :=
      if src.id ≠ tile.id then
        let distanceToMin := (fs.cameraHeight.sub mn).abs
        let distanceToMax := (fs.cameraHeight.sub mx).abs
        if distanceToMin.gt distanceToMax then (mn, mn) else (mx, mx)
      else (mn, mx)
    let st3 := { st2 with tileBoundingRegion := some collapsed }
    let result := distanceToCameraModel fs collapsed.1 collapsed.2
    let st4 := { st3 with tileBoundingRegion := some (mn, mx) }
    (result, st4)

/-- The height the code collapses the range to when the source is an
ancestor: whichever of mn/mx is farther from the camera height h (the
source compares `distanceToMin > distanceToMax`). -/
def collapsedHeight (mn mx h : ℚ) : ℚ :=
  if |h - mx| < |h - mn| then mn else mx

/-- Lines 587-648, `computeTileVisibility`: compute the distance (with
its side effects on the surface state), then classify: full fog opacity
returns NONE; an unresolved bounding-volume source returns PARTIAL;
clipping planes OUTSIDE returns NONE; frustum OUTSIDE returns NONE; under
a 3D perspective camera with occluders, an occluded precomputed occludee
point returns NONE; otherwise the frustum result is returned.  The 2D /
Columbus-view bounding-sphere construction only feeds the intersection
oracles and does not appear separately. -/
def computeTileVisibility (fs : FrameState) (tile : QuadtreeTile)
    (occludersDefined : Bool) : Visibility :=
  let r := computeDistanceToTile fs tile
  let distance := r.1
  let surfaceTile := r.2
  if fs.fogEnabled ∧ 1 ≤ fs.fogOpacity distance fs.fogDensity then
    Visibility.NONE
  else if surfaceTile.boundingVolumeSourceTile = none then
    Visibility.PARTIAL
  else if fs.clippingPlanesDefined ∧ fs.clippingPlanesEnabled ∧
      fs.clippingIntersection = Intersect.OUTSIDE then
    Visibility.NONE
  else if fs.cullingIntersection = Intersect.OUTSIDE then
    Visibility.NONE
  else if fs.mode = SceneMode.SCENE3D ∧ ¬fs.orthographicFrustum ∧
      occludersDefined = true then
    if surfaceTile.occludeePointDefined = false then
      visibilityOfIntersect fs.cullingIntersection
    else if fs.occludeeVisible then
      visibilityOfIntersect fs.cullingIntersection
    else
      Visibility.NONE
  else
    visibilityOfIntersect fs.cullingIntersection

/-- Lines 672-687, `computeTileLoadPriority`: data model.  A surface tile
as read by the priority computation: whether a mesh is present (not read
by the code, but named by the claim) and the center of the oriented
bounding box when one exists. -/
structure PrioritySurfaceTile where
  hasMesh : Bool
  orientedBoundingBoxCenter : Option (EuclideanSpace ℝ (Fin 3))

/-- Camera state read by `computeTileLoadPriority`. -/
structure PriorityFrame where
  cameraPositionWC : EuclideanSpace ℝ (Fin 3)
  cameraDirectionWC : EuclideanSpace ℝ (Fin 3)

/-- `Cartesian3.normalize`: divide a vector by its magnitude. -/
noncomputable def cartesianNormalize (v : EuclideanSpace ℝ (Fin 3)) :
    EuclideanSpace ℝ (Fin 3) :=
  ‖v‖⁻¹ • v

/-- Lines 672-687, `computeTileLoadPriority`: 0 when the tile has no
surface state or no oriented bounding box; otherwise
`(1 - dot(normalize(center - cameraPosition), cameraDirection)) * distance`
(`tile._distance` is passed in explicitly). -/
noncomputable def computeTileLoadPriority (fr : PriorityFrame)
    (data : Option PrioritySurfaceTile) (tileDistance : ℝ) : ℝ :=
  match data with
  | none => 0
  | some st =>
    match st.orientedBoundingBoxCenter with
    | none => 0
    | some c =>
      let tileDirection := cartesianNormalize (c - fr.cameraPositionWC)
      (1 - (inner tileDirection fr.cameraDirectionWC : ℝ)) * tileDistance

/-- Lines 1673-1688, `createFillTile`: the fan index list.  `indices` is
a `Uint16Array` of length `(vertexCount - 1) * 3`; the loop emits one
triangle (center, i, i+1) per boundary index i below `vertexCount - 2`,
and a final triangle (center, vertexCount - 2, 0) closes the loop.  The
`take` mirrors the typed array's fixed length (out-of-range typed-array
writes are silently dropped in JavaScript). -/
def fillTileIndices (vertexCount : ℕ) : List ℕ :=
  (((List.range (vertexCount - 2)).flatMap fun i =>
      [vertexCount - 1, i, i + 1]) ++
    [vertexCount - 1, vertexCount - 2, 0]).take (3 * (vertexCount - 1))

/-- The closed fan as worded by the spec: one triangle per consecutive
pair of boundary-ring indices (wrapping from the last boundary vertex
back to vertex 0), every triangle led by the center vertex
`vertexCount - 1`. -/
def fanIndicesSpec (vertexCount : ℕ) : List ℕ :=
  (List.range (vertexCount - 1)).flatMap fun i =>
    [vertexCount - 1, i, (i + 1) % (vertexCount - 1)]

/-- The two render states built in `endUpdate` (lines 480-501): the
opaque first-pass state (depth test LESS, no blending) and the
alpha-blended state (depth test LESS_OR_EQUAL, ALPHA_BLEND). -/
inductive RenderStateKind where
  | firstPassState
  | alphaBlend
deriving DecidableEq, Repr

/-- A `Cartesian4` color value. -/
structure Cartesian4Q where
  x : ℚ
  y : ℚ
  z : ℚ
  w : ℚ
deriving DecidableEq, Repr

/-- Line 1830: `otherPassesInitialColor`, fully transparent. -/
def otherPassesInitialColor : Cartesian4Q := ⟨0, 0, 0, 0⟩

/-- The fields of a ready `Imagery` read by the draw-command loop:
its layer's alpha and whether each of its two texture forms is defined. -/
structure ImageryModel where
  alpha : ℚ
  textureWebMercator : Bool
  texture : Bool
deriving DecidableEq, Repr

/-- A `TileImagery` as read by the draw-command loop: the ready imagery
(`undefined` while still loading) and which texture form this tile uses. -/
structure TileImageryModel where
  readyImagery : Option ImageryModel
  useWebMercatorT : Bool
deriving DecidableEq, Repr

/-- Line 2038: the texture form selected for a tile imagery. -/
def selectedTexture (ti : TileImageryModel) (im : ImageryModel) : Bool :=
  if ti.useWebMercatorT then im.textureWebMercator else im.texture

/-- The per-command outputs the claims are about: texture count, render
state and initial color. -/
structure DrawCommandModel where
  numberOfDayTextures : ℕ
  renderState : RenderStateKind
  initialColor : Cartesian4Q
deriving DecidableEq, Repr

/-- Line 2052: the fatal assertion `readyImagery is not actually ready!`. -/
inductive DevError where
  | readyImageryNotReady
deriving DecidableEq, Repr

/-- Lines 2029-2096, the inner `while` of `addDrawCommandsForTile`:
consume tile imagery entries while the texture budget allows, skipping
entries with no ready imagery or zero layer alpha, counting entries whose
selected texture exists, and throwing the DeveloperError when a counted
entry's selected texture is missing.  Returns the texture count and the
unconsumed remainder. -/
def packTextures (maxTextures : ℕ) : ℕ → List TileImageryModel →
    Except DevError (ℕ × List TileImageryModel)
  | n, [] => Except.ok (n, [])
  | n, ti :: rest =>
    if n < maxTextures then
      match ti.readyImagery with
      | none => packTextures maxTextures n rest
      | some im =>
        if im.alpha = 0 then packTextures maxTextures n rest
        else if selectedTexture ti im then packTextures maxTextures (n + 1) rest
        else Except.error DevError.readyImageryNotReady
    else Except.ok (n, ti :: rest)

/-- Lines 1960-2157, the `do`-`while` of `addDrawCommandsForTile`: emit a
command per iteration (the first with the given render state and initial
color, every later one with the blended state and transparent color)
until all imagery entries are consumed.  `fuel` bounds the iterations;
`none` models divergence (in the source the loop would spin forever when
the budget is zero and entries remain). -/
def emitCommands (maxTextures : ℕ) : ℕ → RenderStateKind → Cartesian4Q →
    List TileImageryModel → Option (Except DevError (List DrawCommandModel))
  | 0, _, _, _ => none
  | fuel + 1, rs, ic, l =>
    match packTextures maxTextures 0 l with
    | Except.error e => some (Except.error e)
    | Except.ok (n, rest) =>
      let cmd : DrawCommandModel := ⟨n, rs, ic⟩
      if rest.isEmpty then some (Except.ok [cmd])
      else
        match emitCommands maxTextures fuel RenderStateKind.alphaBlend
            otherPassesInitialColor rest with
        | none => none
        | some (Except.error e) => some (Except.error e)
        | some (Except.ok cmds) => some (Except.ok (cmd :: cmds))

/-- Lines 1863-1880: the effective texture budget: the device texture
unit limit, minus one when the reflective ocean is shown (water mask
feature on and the tile has a water-mask texture), minus one more when
ocean waves are shown (reflective ocean plus an ocean normal map). -/
def computeMaxTextures (maximumTextureImageUnits : ℕ) (hasWaterMask : Bool)
    (waterMaskTextureDefined : Bool) (oceanNormalMapDefined : Bool) : ℕ :=
  let showReflectiveOcean := hasWaterMask && waterMaskTextureDefined
  let showOceanWaves := showReflectiveOcean && oceanNormalMapDefined
  maximumTextureImageUnits - (if showReflectiveOcean then 1 else 0) -
    (if showOceanWaves then 1 else 0)

/-- The command-emission part of `addDrawCommandsForTile` for a tile
rendered with its own geometry: the first pass uses the opaque render
state and the provider's configured `_firstPassInitialColor`.  The fuel
`imagery.length + 1` is exact: each iteration either consumes at least
one entry (budget at least one) or is the final one. -/
def addDrawCommandsForTileModel (firstPassInitialColor : Cartesian4Q)
    (maxTextures : ℕ) (imagery : List TileImageryModel) :
    Option (Except DevError (List DrawCommandModel)) :=
  emitCommands maxTextures (imagery.length + 1) RenderStateKind.firstPassState
    firstPassInitialColor imagery

/-- A tile imagery entry that would trip the line 2041-2053 assertion:
ready, nonzero layer alpha, but missing its selected texture form. -/
def badReadyImagery (ti : TileImageryModel) : Bool :=
  match ti.readyImagery with
  | some im => decide (im.alpha ≠ 0) && !(selectedTexture ti im)
  | none => false

/-- The update of lines 726-730: set the tile's reference to the nearest
renderable tile, then clear that tile's own reference (the later write
wins where the two collide). -/
def setRef (f : ℕ → Option ℕ) (tileId nid : ℕ) : ℕ → Option ℕ :=
  fun z => if z = nid then none else if z = tileId then some nid else f z

/-- The update of line 741: clear the tile's own reference. -/
def clearRef (f : ℕ → Option ℕ) (tileId : ℕ) : ℕ → Option ℕ :=
  fun z => if z = tileId then none else f z

/-- Lines 706-747, `showTileThisFrame`, renderable back-references: the
state is the `renderableTile` field of every tile, as a map from tile id
to the id it defers to (`none` for `undefined`).  When a nearest
renderable tile other than the tile itself is supplied, the tile's
reference is set to it and then the target's own reference is cleared
(lines 725-730); otherwise the tile's reference is cleared (line 741). -/
def showTileUpdate (f : ℕ → Option ℕ) (tileId : ℕ) (nearest : Option ℕ) :
    ℕ → Option ℕ :=
  match nearest with
  | some nid =>
    if nid ≠ tileId then setRef f tileId nid
    else clearRef f tileId
  | none => clearRef f tileId

/-- A sequence of `showTileThisFrame` calls, each given as (tile id,
nearest renderable tile id or none). -/
def runShows (cmds : List (ℕ × Option ℕ)) (f : ℕ → Option ℕ) :
    ℕ → Option ℕ :=
  cmds.foldl (fun g c => showTileUpdate g c.1 c.2) f

/-- The initial state: no tile defers to any other. -/
def initialRefs : ℕ → Option ℕ := fun _ => none

/-- Follow back-references for n hops. -/
def follow (f : ℕ → Option ℕ) : ℕ → ℕ → Option ℕ
  | x, 0 => some x
  | x, n + 1 =>
    match f x with
    | none => none
    | some y => follow f y n

/-- No chain of back-references returns to its starting tile. -/
def Acyclic (f : ℕ → Option ℕ) : Prop :=
  ∀ x n, 0 < n → follow f x n ≠ some x

/-- Every back-reference points at a tile with no back-reference of its
own (the claimed "no chain longer than one hop" invariant). -/
def OneHopOnly (f : ℕ → Option ℕ) : Prop :=
  ∀ a b, f a = some b → f b = none

/-! Concrete inputs used by witnesses and counterexamples. -/

/-- A root tile with no surface state and no ancestors. -/
def bareTile : QuadtreeTile := ⟨⟨0, none⟩, []⟩

/-- A surface state whose mesh carries heights 0 and 10. -/
def meshSurface : GlobeSurfaceTile :=
  { mesh := some ⟨some (JSNum.val 0), some (JSNum.val 10)⟩ }

/-- A tile with no height data of its own whose parent's mesh carries
heights 0 and 10. -/
def childTile : QuadtreeTile := ⟨⟨1, some {}⟩, [⟨0, some meshSurface⟩]⟩

/-- The parent of `childTile`, as a full tile. -/
def parentTile : QuadtreeTile := ⟨⟨0, some meshSurface⟩, []⟩

/-- A tile whose own mesh carries heights 0 and 10. -/
def meshTile : QuadtreeTile := ⟨⟨2, some meshSurface⟩, []⟩

/-- A frame with fog disabled but a fog-opacity function that is 2
everywhere, camera height 100, and all collaborator oracles returning
"possibly visible". -/
def fogDisabledFrame : FrameState :=
  { terrainExaggeration := JSNum.val 1
    cameraHeight := JSNum.val 100
    horizontalDistanceSq := 0
    fogEnabled := false
    fogDensity := 0
    fogOpacity := fun _ _ => 2
    mode := SceneMode.SCENE3D
    clippingPlanesDefined := false
    clippingPlanesEnabled := false
    clippingIntersection := Intersect.INTERSECTING
    cullingIntersection := Intersect.INTERSECTING
    orthographicFrustum := false
    occludeeVisible := true
    computedOccludeeDefined := false }

/-- The same frame with fog enabled. -/
def fogEnabledFrame : FrameState :=
  { fogDisabledFrame with fogEnabled := true }

/-- A tile imagery entry that is ready with full alpha and a geographic
texture. -/
def goodTileImagery : TileImageryModel :=
  ⟨some ⟨1, true, true⟩, false⟩

/-- A tile imagery entry that is ready with nonzero alpha but missing its
selected (geographic) texture form. -/
def badTileImagery : TileImageryModel :=
  ⟨some ⟨1, true, false⟩, false⟩

/-- Nine ready imagery layers. -/
def nineGoodImagery : List TileImageryModel :=
  List.replicate 9 goodTileImagery

/-- A white background color. -/
def backgroundColor : Cartesian4Q := ⟨1, 1, 1, 1⟩

/-- The renderable back-reference state after showing tile 1 with
nearest renderable ancestor 0, then tile 0 with nearest renderable
ancestor 2. -/
def chainedRefs : ℕ → Option ℕ :=
  runShows [(1, some 0), (0, some 2)] initialRefs

/-- Camera at the origin looking along the second axis. -/
noncomputable def priorityFrameC : PriorityFrame :=
  ⟨0, EuclideanSpace.single 1 (1 : ℝ)⟩

/-- A surface tile with no mesh whose oriented bounding box is centered
on the first axis, off the camera's look direction. -/
noncomputable def prioritySurfaceC : PrioritySurfaceTile :=
  ⟨false, some (EuclideanSpace.single 0 (2 : ℝ))⟩

/-- Camera at the origin looking along the first axis. -/
noncomputable def priorityFrameW : PriorityFrame :=
  ⟨0, EuclideanSpace.single 0 (1 : ℝ)⟩

/-! Helper lemmas. -/

theorem heightsFromTile_default (exaggeration : JSNum) :
    heightsFromTile exaggeration default = none := rfl

theorem findSome?_mem {α β : Type} (f : α → Option β) :
    ∀ (l : List α) (b : β), l.findSome? f = some b → ∃ a ∈ l, f a = some b := by
  intro l
  induction l with
  | nil => intro b h; simp [List.findSome?] at h
  | cons a rest ih =>
    intro b h
    rw [List.findSome?_cons] at h
    cases hfa : f a with
    | some c =>
      rw [hfa] at h
      exact ⟨a, List.mem_cons_self a rest, hfa.trans h⟩
    | none =>
      rw [hfa] at h
      obtain ⟨x, hx, hfx⟩ := ih b h
      exact ⟨x, List.mem_cons_of_mem a hx, hfx⟩

theorem ancestorHeightSource_eq_findSome (exaggeration : JSNum) :
    ∀ l : List TileNode,
      ancestorHeightSource exaggeration l =
        (mkAncestors l).findSome? (fun a =>
          (heightsFromTile exaggeration (a.data.getD default)).map
            fun h => (a, h.1, h.2)) := by
  intro l
  induction l with
  | nil => rfl
  | cons n rest ih =>
    rw [mkAncestors, List.findSome?_cons]
    cases hd : n.data with
    | none =>
      have hf : heightsFromTile exaggeration
          ((QuadtreeTile.mk n rest).data.getD default) = none := by
        simp [QuadtreeTile.data, hd, heightsFromTile_default]
      rw [ancestorHeightSource, hd, ih]
      simp [hf]
    | some ast =>
      have hdat : (QuadtreeTile.mk n rest).data.getD default = ast := by
        simp [QuadtreeTile.data, hd]
      rw [ancestorHeightSource, hd, hdat]
      cases hh : heightsFromTile exaggeration ast with
      | none => simp [hh, ih]
      | some p => cases p with | mk mn mx => simp [hh]

theorem updateTileBoundingRegion_eq_spec (exaggeration : JSNum)
    (tile : QuadtreeTile) :
    updateTileBoundingRegion exaggeration tile =
      match resolveHeightRangeSpec exaggeration tile with
      | some (a, mn, mx) => (some a, mn, mx)
      | none => (none, JSNum.nan, JSNum.nan) := by
  rw [updateTileBoundingRegion, resolveHeightRangeSpec, chainTiles,
    List.findSome?_cons]
  cases hh : heightsFromTile exaggeration (tile.data.getD default) with
  | some p =>
    cases p with
    | mk mn mx => simp [hh]
  | none =>
    simp only [hh, Option.map_none']
    rw [QuadtreeTile.ancestors, ← ancestorHeightSource_eq_findSome]

theorem resolveHeightRangeSpec_mem (exaggeration : JSNum) (tile a : QuadtreeTile)
    (mn mx : JSNum)
    (h : resolveHeightRangeSpec exaggeration tile = some (a, mn, mx)) :
    a ∈ chainTiles tile ∧
      heightsFromTile exaggeration (a.data.getD default) = some (mn, mx) := by
  obtain ⟨x, hx, hfx⟩ := findSome?_mem _ _ _ h
  cases hh : heightsFromTile exaggeration (x.data.getD default) with
  | none => rw [hh] at hfx; simp at hfx
  | some p =>
    rw [hh] at hfx
    simp only [Option.map_some'] at hfx
    obtain ⟨rfl, rfl, rfl⟩ : x = a ∧ p.1 = mn ∧ p.2 = mx := by
      injection hfx with hfx
      exact ⟨congrArg Prod.fst hfx, congrArg (fun y => y.2.1) hfx,
        congrArg (fun y => y.2.2) hfx⟩
    exact ⟨hx, by rw [hh]⟩

theorem wf_heightsFromTile (exaggeration : JSNum) (e : ℚ)
    (st : GlobeSurfaceTile) (hexag : exaggeration = JSNum.val e) (he : 0 ≤ e)
    (hwf : wfData st = true) (mn mx : JSNum)
    (h : heightsFromTile exaggeration st = some (mn, mx)) :
    ∃ a b : ℚ, mn = JSNum.val a ∧ mx = JSNum.val b ∧ a ≤ b := by
  have hscale : ∀ p q : JSNum, p.le q = true →
      ∃ a b : ℚ, p.mul exaggeration = JSNum.val a ∧
        q.mul exaggeration = JSNum.val b ∧ a ≤ b := by
    intro p q hpq
    cases p with
    | nan => simp [JSNum.le] at hpq
    | val a =>
      cases q with
      | nan => simp [JSNum.le] at hpq
      | val b =>
        refine ⟨a * e, b * e, by rw [hexag]; rfl, by rw [hexag]; rfl, ?_⟩
        have hab : a ≤ b := by simpa [JSNum.le] using hpq
        exact mul_le_mul_of_nonneg_right hab he
  rw [wfData] at hwf
  simp only [Bool.and_eq_true] at hwf
  obtain ⟨⟨hmesh, htd⟩, hbvh⟩ := hwf
  rw [heightsFromTile] at h
  cases hm : meshHeights st with
  | some p =>
    rw [hm] at h hmesh
    injection h with h
    cases p with
    | mk pmn pmx =>
      rw [heightPairOrdered] at hmesh
      cases pmn with
      | nan => simp [JSNum.le] at hmesh
      | val a =>
        cases pmx with
        | nan => simp [JSNum.le] at hmesh
        | val b =>
          obtain ⟨rfl, rfl⟩ : JSNum.val a = mn ∧ JSNum.val b = mx := by
            constructor
            · exact congrArg Prod.fst h
            · exact congrArg Prod.snd h
          exact ⟨a, b, rfl, rfl, by simpa [JSNum.le] using hmesh⟩
  | none =>
    rw [hm] at h
    cases ht : terrainDataRawHeights st with
    | some p =>
      rw [terrainDataHeights, ht] at h
      rw [ht] at htd
      simp only [Option.map_some'] at h
      injection h with h
      cases p with
      | mk pmn pmx =>
        rw [heightPairOrdered] at htd
        obtain ⟨a, b, ha, hb, hab⟩ := hscale pmn pmx htd
        refine ⟨a, b, ?_, ?_, hab⟩
        · have h1 : pmn.mul exaggeration = mn := congrArg Prod.fst h
          rw [← h1]; exact ha
        · have h2 : pmx.mul exaggeration = mx := congrArg Prod.snd h
          rw [← h2]; exact hb
    | none =>
      rw [terrainDataHeights, ht] at h
      simp only [Option.map_none'] at h
      rw [bvhHeights] at h
      cases hbb : bvhRawHeights st with
      | none => rw [hbb] at h; simp at h
      | some p =>
        rw [hbb] at h hbvh
        simp only [Option.map_some'] at h
        injection h with h
        cases p with
        | mk b0 b1 =>
          rw [heightPairOrdered] at hbvh
          obtain ⟨a, b, ha, hb, hab⟩ := hscale b0 b1 hbvh
          refine ⟨a, b, ?_, ?_, hab⟩
          · have h1 : b0.mul exaggeration = mn := congrArg Prod.fst h
            rw [← h1]; exact ha
          · have h2 : b1.mul exaggeration = mx := congrArg Prod.snd h
            rw [← h2]; exact hb

theorem heightIntervalDistance_nonneg (mn mx h : ℚ) :
    0 ≤ heightIntervalDistance mn mx h :=
  le_max_left 0 _

theorem heightIntervalDistance_self (c h : ℚ) :
    heightIntervalDistance c c h = |h - c| := by
  rw [heightIntervalDistance]
  rcases le_total h c with hc | hc
  · rw [max_eq_left (by linarith : h - c ≤ c - h),
      max_eq_right (by linarith : (0 : ℚ) ≤ c - h),
      abs_of_nonpos (by linarith : h - c ≤ 0)]
    ring
  · rw [max_eq_right (by linarith : c - h ≤ h - c),
      max_eq_right (by linarith : (0 : ℚ) ≤ h - c),
      abs_of_nonneg (by linarith : (0 : ℚ) ≤ h - c)]

theorem collapsedHeight_abs (mn mx h : ℚ) :
    |h - collapsedHeight mn mx h| = max |h - mn| |h - mx| := by
  rw [collapsedHeight]
  split
  · next hlt => rw [max_eq_left (le_of_lt hlt)]
  · next hge => rw [max_eq_right (not_lt.mp hge)]

theorem heightIntervalDistance_le (mn mx tmn tmx h : ℚ)
    (h1 : mn ≤ tmn) (h2 : tmn ≤ tmx) (h3 : tmx ≤ mx) :
    heightIntervalDistance tmn tmx h ≤ max |h - mn| |h - mx| := by
  rw [heightIntervalDistance]
  apply max_le
  · exact le_trans (abs_nonneg (h - mn)) (le_max_left _ _)
  · apply max_le
    · refine le_trans ?_ (le_max_right |h - mn| |h - mx|)
      have hx := le_abs_self (mx - h)
      rw [abs_sub_comm] at hx
      linarith
    · refine le_trans ?_ (le_max_left |h - mn| |h - mx|)
      have hx := le_abs_self (h - mn)
      linarith

/-! Claim theorems. -/

/-- C1: Height resolution (`updateTileBoundingRegion`): for every tile,
the height range is taken from the first matching source in the fixed
order mesh heights, scaled terrain-data heights, scaled non-NaN BVH
heights, then the same tests on each ancestor in parent order (this is
`resolveHeightRangeSpec`); the returned source tile is the tile itself or
a strict ancestor, and `none` (unresolved, with NaN heights) when no tile
in the chain provides any source. -/
theorem heightResolution_order (exaggeration : JSNum) (tile : QuadtreeTile) :
    (updateTileBoundingRegion exaggeration tile =
      match resolveHeightRangeSpec exaggeration tile with
      | some (a, mn, mx) => (some a, mn, mx)
      | none => (none, JSNum.nan, JSNum.nan)) ∧
    Option.elim (updateTileBoundingRegion exaggeration tile).1 True
      (fun s => s = tile ∨ s ∈ tile.ancestors) := by
  refine ⟨updateTileBoundingRegion_eq_spec exaggeration tile, ?_⟩
  cases hu : (updateTileBoundingRegion exaggeration tile).1 with
  | none => trivial
  | some s =>
    have hspec := updateTileBoundingRegion_eq_spec exaggeration tile
    rw [hspec] at hu
    cases hr : resolveHeightRangeSpec exaggeration tile with
    | none => rw [hr] at hu; simp at hu
    | some q =>
      obtain ⟨a, mn, mx⟩ := q
      rw [hr] at hu
      simp only [Option.elim]
      obtain rfl : a = s := by simpa using hu
      have hmem := (resolveHeightRangeSpec_mem exaggeration tile a mn mx hr).1
      rw [chainTiles] at hmem
      simpa using hmem

/-- C7 (amended): when every height source along the chain is well formed
(ordered, non-NaN pairs) and the terrain exaggeration is a nonnegative
number, a successful height resolution leaves
minimumHeight ≤ maximumHeight; when resolution fails, both heights are
NaN (so the JavaScript comparison minimumHeight <= maximumHeight is false
there, contrary to the unamended claim). -/
theorem boundingRegion_ordered_amended (exaggeration : JSNum) (e : ℚ)
    (tile : QuadtreeTile) (hexag : exaggeration = JSNum.val e) (he : 0 ≤ e)
    (hwf : ∀ a ∈ chainTiles tile, wfData (a.data.getD default) = true) :
    (∀ s, (updateTileBoundingRegion exaggeration tile).1 = some s →
      JSNum.le (updateTileBoundingRegion exaggeration tile).2.1
        (updateTileBoundingRegion exaggeration tile).2.2 = true) ∧
    ((updateTileBoundingRegion exaggeration tile).1 = none →
      (updateTileBoundingRegion exaggeration tile).2 =
        (JSNum.nan, JSNum.nan)) := by
  have hspec := updateTileBoundingRegion_eq_spec exaggeration tile
  constructor
  · intro s hs
    cases hr : resolveHeightRangeSpec exaggeration tile with
    | none => rw [hspec, hr] at hs; simp at hs
    | some q =>
      obtain ⟨a, mn, mx⟩ := q
      have hmem := resolveHeightRangeSpec_mem exaggeration tile a mn mx hr
      obtain ⟨p, q', hp, hq, hpq⟩ := wf_heightsFromTile exaggeration e _
        hexag he (hwf a hmem.1) mn mx hmem.2
      rw [hspec, hr]
      subst hp hq
      simp [JSNum.le, hpq]
  · intro hnone
    cases hr : resolveHeightRangeSpec exaggeration tile with
    | some q =>
      obtain ⟨a, mn, mx⟩ := q
      rw [hspec, hr] at hnone
      simp at hnone
    | none => rw [hspec, hr]

/-- C7 witness: a tile whose own mesh carries heights 0 and 10 resolves
to itself with an ordered height range. -/
theorem boundingRegion_ordered_witness :
    JSNum.le (updateTileBoundingRegion (JSNum.val 1) meshTile).2.1
      (updateTileBoundingRegion (JSNum.val 1) meshTile).2.2 = true :=
  (boundingRegion_ordered_amended (JSNum.val 1) 1 meshTile rfl (by norm_num)
    (by decide)).1 meshTile (by decide)

/-- C7 counterexample: for a tile with no height data and no ancestors,
resolution fails, both bounding-region heights are NaN, and the
JavaScript comparison minimumHeight <= maximumHeight is false, refuting
the claim's "including the case where resolution fails" part. -/
theorem boundingRegion_ordered_counterexample :
    (updateTileBoundingRegion (JSNum.val 1) bareTile).2 =
      (JSNum.nan, JSNum.nan) ∧
    JSNum.le (updateTileBoundingRegion (JSNum.val 1) bareTile).2.1
      (updateTileBoundingRegion (JSNum.val 1) bareTile).2.2 = false := by
  decide

/-- C2: Conservative distance (`computeDistanceToTile`): when the
resolved height range [mn, mx] comes from a tile other than the tile
itself, the distance is measured with the range collapsed to the single
height farther from the camera's height (its distance to the camera
height is the larger of the two endpoint distances), and the result is at
least the distance that the same measure would give for any height range
[tmn, tmx] contained in [mn, mx] — in particular the tile's own true
tight range. -/
theorem distance_conservative (fs : FrameState) (tile src : QuadtreeTile)
    (mn mx h : ℚ)
    (hupd : updateTileBoundingRegion fs.terrainExaggeration tile =
      (some src, JSNum.val mn, JSNum.val mx))
    (hanc : src ∈ tile.ancestors)
    (hid : src.id ≠ tile.id)
    (hcam : fs.cameraHeight = JSNum.val h) :
    ((computeDistanceToTile fs tile).1 =
      distanceToCameraModel fs (JSNum.val (collapsedHeight mn mx h))
        (JSNum.val (collapsedHeight mn mx h)) ∧
     |h - collapsedHeight mn mx h| = max |h - mn| |h - mx|) ∧
    (∀ tmn tmx : ℚ, mn ≤ tmn → tmn ≤ tmx → tmx ≤ mx →
      (distanceToCameraModel fs (JSNum.val tmn) (JSNum.val tmx)).le
        ((computeDistanceToTile fs tile).1) = true) := by
  have hval : ∀ a b : ℚ,
      distanceToCameraModel fs (JSNum.val a) (JSNum.val b) =
        JSNum.val (fs.horizontalDistanceSq +
          (heightIntervalDistance a b h) ^ 2) := by
    intro a b
    simp only [distanceToCameraModel, hcam]
  have hres : (computeDistanceToTile fs tile).1 =
      distanceToCameraModel fs (JSNum.val (collapsedHeight mn mx h))
        (JSNum.val (collapsedHeight mn mx h)) := by
    simp only [computeDistanceToTile, hupd]
    rw [if_pos hid]
    simp only [hcam, JSNum.sub, JSNum.abs, JSNum.gt, collapsedHeight]
    by_cases hc : |h - mx| < |h - mn|
    · simp [hc]
    · simp [hc]
  refine ⟨⟨hres, collapsedHeight_abs mn mx h⟩, ?_⟩
  intro tmn tmx h1 h2 h3
  rw [hres, hval, hval]
  simp only [JSNum.le, decide_eq_true_eq]
  have hd1 : heightIntervalDistance tmn tmx h ≤
      |h - collapsedHeight mn mx h| := by
    rw [collapsedHeight_abs]
    exact heightIntervalDistance_le mn mx tmn tmx h h1 h2 h3
  have hd2 := heightIntervalDistance_nonneg tmn tmx h
  have hsq : (heightIntervalDistance tmn tmx h) ^ 2 ≤
      (heightIntervalDistance (collapsedHeight mn mx h)
        (collapsedHeight mn mx h) h) ^ 2 := by
    rw [heightIntervalDistance_self]
    exact pow_le_pow_left₀ hd2 hd1 2
  linarith

/-- C2 witness: a child tile with heights 0..10 inherited from its
parent, camera height 100, and true range 2..3. -/
theorem distance_conservative_witness :
    (distanceToCameraModel fogDisabledFrame (JSNum.val 2) (JSNum.val 3)).le
      ((computeDistanceToTile fogDisabledFrame childTile).1) = true :=
  (distance_conservative fogDisabledFrame childTile parentTile 0 10 100
    (by decide) (by decide) (by decide) rfl).2 2 3 (by norm_num) (by norm_num)
    (by norm_num)

/-- C10: Collapse is temporary: after `computeDistanceToTile` returns,
the tile's bounding region holds exactly the heights produced by height
resolution; the collapse used for the distance measurement is always
undone before returning. -/
theorem collapse_restored (fs : FrameState) (tile : QuadtreeTile) :
    (computeDistanceToTile fs tile).2.tileBoundingRegion =
      some ((updateTileBoundingRegion fs.terrainExaggeration tile).2) := by
  rcases hu : updateTileBoundingRegion fs.terrainExaggeration tile
    with ⟨src?, mn, mx⟩
  simp only [computeDistanceToTile, hu]
  cases src? with
  | none => rfl
  | some src => rfl

/-- C3 (amended): `computeTileVisibility` returns NONE whenever fog is
enabled and the fog opacity at the computed tile distance is at least
1.0, regardless of the frustum, clipping-plane and occlusion results.
(Unamended, the claim fails when fog is disabled; see the
counterexample.) -/
theorem fog_shortCircuit_amended (fs : FrameState) (tile : QuadtreeTile)
    (occludersDefined : Bool) (hfog : fs.fogEnabled = true)
    (hop : 1 ≤ fs.fogOpacity (computeDistanceToTile fs tile).1
      fs.fogDensity) :
    computeTileVisibility fs tile occludersDefined = Visibility.NONE := by
  simp only [computeTileVisibility]
  rw [if_pos ⟨hfog, hop⟩]

/-- C3 witness: with fog enabled and a fully opaque fog function, a bare
tile is classified NONE. -/
theorem fog_shortCircuit_witness :
    computeTileVisibility fogEnabledFrame bareTile false = Visibility.NONE :=
  fog_shortCircuit_amended fogEnabledFrame bareTile false rfl (by decide)

/-- C3 counterexample: with fog disabled but fog opacity 2 (at least 1.0)
at the computed distance, a bare tile is classified PARTIAL, not NONE —
the fog short-circuit only runs when `frameState.fog.enabled` is true
(line 591), which the claim does not require. -/
theorem fog_shortCircuit_counterexample :
    1 ≤ fogDisabledFrame.fogOpacity
        (computeDistanceToTile fogDisabledFrame bareTile).1
        fogDisabledFrame.fogDensity ∧
    computeTileVisibility fogDisabledFrame bareTile false =
      Visibility.PARTIAL := by
  constructor
  · decide
  · decide

/-- C8 (amended): `computeTileLoadPriority` returns
`(1 - cos(angle between camera-forward and camera-to-center)) * distance`
whenever the tile has surface state and an oriented bounding box (given a
unit camera direction), and returns 0 exactly when the surface state or
the oriented bounding box is missing — not, as claimed, when the mesh is
missing (see the counterexample). -/
theorem loadPriority_amended :
    (∀ (fr : PriorityFrame) (d : ℝ), computeTileLoadPriority fr none d = 0) ∧
    (∀ (fr : PriorityFrame) (st : PrioritySurfaceTile) (d : ℝ),
      st.orientedBoundingBoxCenter = none →
      computeTileLoadPriority fr (some st) d = 0) ∧
    (∀ (fr : PriorityFrame) (st : PrioritySurfaceTile) (d : ℝ)
      (c : EuclideanSpace ℝ (Fin 3)),
      st.orientedBoundingBoxCenter = some c →
      ‖fr.cameraDirectionWC‖ = 1 →
      c ≠ fr.cameraPositionWC →
      computeTileLoadPriority fr (some st) d =
        (1 - Real.cos (InnerProductGeometry.angle
          (c - fr.cameraPositionWC) fr.cameraDirectionWC)) * d) := by
  refine ⟨fun fr d => rfl,
    fun fr st d hc => by simp [computeTileLoadPriority, hc], ?_⟩
  intro fr st d c hc hdir hne
  simp only [computeTileLoadPriority, hc]
  rw [InnerProductGeometry.cos_angle, hdir, mul_one, cartesianNormalize,
    real_inner_smul_left, div_eq_inv_mul]

/-- C8 witness: the formula case evaluated with camera at the origin
looking along the first axis and a bounding-box center on that axis. -/
theorem loadPriority_witness :
    computeTileLoadPriority priorityFrameW (some prioritySurfaceC) 2 =
      (1 - Real.cos (InnerProductGeometry.angle
        (EuclideanSpace.single 0 (2 : ℝ) - priorityFrameW.cameraPositionWC)
        priorityFrameW.cameraDirectionWC)) * 2 :=
  loadPriority_amended.2.2 priorityFrameW prioritySurfaceC 2
    (EuclideanSpace.single 0 (2 : ℝ)) rfl
    (by
      show ‖EuclideanSpace.single (0 : Fin 3) (1 : ℝ)‖ = 1
      rw [EuclideanSpace.norm_single]
      norm_num)
    (by
      intro hcc
      have h0 := congrFun hcc 0
      simp [EuclideanSpace.single_apply, priorityFrameW] at h0)

/-- C8 counterexample: a tile with surface state, no mesh, but a defined
oriented bounding box centered off the camera axis scores 1, not 0 —
refuting the claim that every tile with no mesh scores exactly 0. -/
theorem loadPriority_counterexample :
    prioritySurfaceC.hasMesh = false ∧
    computeTileLoadPriority priorityFrameC (some prioritySurfaceC) 1 = 1 ∧
    computeTileLoadPriority priorityFrameC (some prioritySurfaceC) 1 ≠ 0 := by
  have h2 : computeTileLoadPriority priorityFrameC (some prioritySurfaceC) 1
      = 1 := by
    simp [computeTileLoadPriority, priorityFrameC, prioritySurfaceC,
      cartesianNormalize, real_inner_smul_left,
      EuclideanSpace.inner_single_left, EuclideanSpace.single_apply]
  refine ⟨rfl, h2, by rw [h2]; norm_num⟩

/-- Length of a flat-mapped index list whose blocks are all triangles. -/
theorem length_flatMap_range_three (n : ℕ) (f : ℕ → List ℕ)
    (hf : ∀ i, (f i).length = 3) :
    ((List.range n).flatMap f).length = 3 * n := by
  induction n with
  | zero => rfl
  | succ m ih =>
    rw [List.range_succ, List.flatMap_append, List.length_append, ih]
    have h1 : ([m].flatMap f).length = 3 := by simp [hf]
    omega

/-- C4: Fill-mesh fan triangulation (`createFillTile`): for every vertex
count of at least 2 (a nonempty boundary ring plus the center vertex),
the generated index list is exactly the closed fan — one triangle per
consecutive pair of boundary indices, wrapping from the last boundary
vertex back to vertex 0, each led by the center index — and has exactly
`3 * (vertexCount - 1)` entries. -/
theorem fillTile_fan (vertexCount : ℕ) (hvc : 2 ≤ vertexCount) :
    fillTileIndices vertexCount = fanIndicesSpec vertexCount ∧
    (fillTileIndices vertexCount).length = 3 * (vertexCount - 1) := by
  obtain ⟨k, rfl⟩ : ∃ k, vertexCount = k + 2 := ⟨vertexCount - 2, by omega⟩
  have harith1 : k + 2 - 2 = k := by omega
  have harith2 : k + 2 - 1 = k + 1 := by omega
  have htake :
      (((List.range k).flatMap fun i => [k + 1, i, i + 1]) ++
        [k + 1, k, 0]).length = 3 * (k + 1) := by
    rw [List.length_append,
      length_flatMap_range_three k (fun i => [k + 1, i, i + 1])
        (fun i => rfl)]
    simp
    omega
  have hmain : fillTileIndices (k + 2) = fanIndicesSpec (k + 2) := by
    rw [fillTileIndices, fanIndicesSpec, harith1, harith2, ← htake,
      List.take_length, List.range_succ, List.flatMap_append]
    congr 1
    · apply List.flatMap_congr
      intro i hi
      have hlt : i + 1 < k + 1 := by
        have := List.mem_range.mp hi
        omega
      rw [Nat.mod_eq_of_lt hlt]
    · simp [Nat.mod_self]
  refine ⟨hmain, ?_⟩
  rw [hmain, fanIndicesSpec, harith2,
    length_flatMap_range_three (k + 1)
      (fun i => [k + 1, i, (i + 1) % (k + 1)]) (fun i => rfl)]

/-- C4 witness: the fan for six vertices (a five-vertex boundary ring
plus the center). -/
theorem fillTile_fan_witness :
    fillTileIndices 6 = fanIndicesSpec 6 ∧
    (fillTileIndices 6).length = 3 * (6 - 1) :=
  fillTile_fan 6 (by norm_num)

/-- One unfolding step of the draw-command loop. -/
theorem emitCommands_unfold (maxT fuel : ℕ) (rs : RenderStateKind)
    (ic : Cartesian4Q) (l : List TileImageryModel) :
    emitCommands maxT (fuel + 1) rs ic l =
      match packTextures maxT 0 l with
      | Except.error e => some (Except.error e)
      | Except.ok (n, rest) =>
        if rest.isEmpty then some (Except.ok [⟨n, rs, ic⟩])
        else
          match emitCommands maxT fuel RenderStateKind.alphaBlend
              otherPassesInitialColor rest with
          | none => none
          | some (Except.error e) => some (Except.error e)
          | some (Except.ok cmds) =>
            some (Except.ok (⟨n, rs, ic⟩ :: cmds)) := rfl

/-- On a list of ready entries with nonzero alpha and present textures,
the inner packing loop packs up to the budget and leaves the rest. -/
theorem packTextures_allGood (maxT : ℕ) :
    ∀ (l : List TileImageryModel) (n : ℕ),
      (∀ ti ∈ l, ∃ im, ti.readyImagery = some im ∧ im.alpha ≠ 0 ∧
        selectedTexture ti im = true) →
      n ≤ maxT →
      packTextures maxT n l =
        Except.ok (min (n + l.length) maxT, l.drop (maxT - n)) := by
  intro l
  induction l with
  | nil =>
    intro n hg hn
    simp only [packTextures, List.length_nil, Nat.add_zero, List.drop_nil]
    rw [min_eq_left hn]
  | cons ti rest ih =>
    intro n hg hn
    obtain ⟨im, hri, hα, htex⟩ := hg ti (List.mem_cons_self ti rest)
    by_cases hlt : n < maxT
    · simp only [packTextures, hri]
      rw [if_pos hlt, if_neg hα, if_pos htex,
        ih (n + 1) (fun x hx => hg x (List.mem_cons_of_mem ti hx)) (by omega),
        List.length_cons]
      have e1 : n + 1 + rest.length = n + (rest.length + 1) := by omega
      have e2 : maxT - n = (maxT - (n + 1)) + 1 := by omega
      rw [e1, e2, List.drop_succ_cons]
    · have hge : n = maxT := by omega
      simp only [packTextures]
      rw [if_neg hlt]
      subst hge
      rw [min_eq_right (Nat.le_add_right n _), Nat.sub_self, List.drop_zero]

/-- C5: Texture-budget packing (`addDrawCommandsForTile`): a tile with 9
ready, nonzero-alpha, textured imagery layers and an effective texture
budget of 4 produces exactly three commands carrying 4, 4 and 1 textures;
the first uses the opaque first-pass render state with the provider's
configured initial color, the later ones use the alpha-blended render
state with the fully transparent initial color. -/
theorem drawCommands_nineLayers (bg : Cartesian4Q) (u : ℕ)
    (hw wm onm : Bool) (l : List TileImageryModel)
    (hbudget : computeMaxTextures u hw wm onm = 4)
    (hlen : l.length = 9)
    (hgood : ∀ ti ∈ l, ∃ im, ti.readyImagery = some im ∧ im.alpha ≠ 0 ∧
      selectedTexture ti im = true) :
    addDrawCommandsForTileModel bg (computeMaxTextures u hw wm onm) l =
      some (Except.ok
        [⟨4, RenderStateKind.firstPassState, bg⟩,
         ⟨4, RenderStateKind.alphaBlend, otherPassesInitialColor⟩,
         ⟨1, RenderStateKind.alphaBlend, otherPassesInitialColor⟩]) := by
  have h1good : ∀ ti ∈ l.drop 4, ∃ im, ti.readyImagery = some im ∧
      im.alpha ≠ 0 ∧ selectedTexture ti im = true :=
    fun ti hti => hgood ti (List.drop_subset 4 l hti)
  have h2good : ∀ ti ∈ (l.drop 4).drop 4, ∃ im, ti.readyImagery = some im ∧
      im.alpha ≠ 0 ∧ selectedTexture ti im = true :=
    fun ti hti => h1good ti (List.drop_subset 4 _ hti)
  have h1len : (l.drop 4).length = 5 := by
    rw [List.length_drop, hlen]
  have h2len : ((l.drop 4).drop 4).length = 1 := by
    rw [List.length_drop, h1len]
  have h1ne : (l.drop 4).isEmpty = false := by
    cases hc : l.drop 4 with
    | nil => rw [hc] at h1len; simp at h1len
    | cons a b => rfl
  have h2ne : ((l.drop 4).drop 4).isEmpty = false := by
    cases hc : (l.drop 4).drop 4 with
    | nil => rw [hc] at h2len; simp at h2len
    | cons a b => rfl
  have h3nil : ((l.drop 4).drop 4).drop 4 = [] := by
    have : (((l.drop 4).drop 4).drop 4).length = 0 := by
      rw [List.length_drop, h2len]
    exact List.length_eq_zero.mp this
  rw [hbudget, addDrawCommandsForTileModel,
    show l.length + 1 = 9 + 1 by rw [hlen]]
  rw [emitCommands_unfold, packTextures_allGood 4 l 0 hgood (by omega)]
  simp only [Nat.sub_zero, Nat.zero_add]
  rw [hlen, show min (9 : ℕ) 4 = 4 by norm_num]
  rw [if_neg (by rw [h1ne]; exact Bool.false_ne_true)]
  rw [show (9 : ℕ) = 8 + 1 from rfl]
  rw [emitCommands_unfold,
    packTextures_allGood 4 (l.drop 4) 0 h1good (by omega)]
  simp only [Nat.sub_zero, Nat.zero_add]
  rw [h1len, show min (5 : ℕ) 4 = 4 by norm_num]
  rw [if_neg (by rw [h2ne]; exact Bool.false_ne_true)]
  rw [show (8 : ℕ) = 7 + 1 from rfl]
  rw [emitCommands_unfold,
    packTextures_allGood 4 ((l.drop 4).drop 4) 0 h2good (by omega)]
  simp only [Nat.sub_zero, Nat.zero_add]
  rw [h2len, show min (1 : ℕ) 4 = 1 by norm_num]
  rw [h3nil]
  rfl

/-- C5 witness: nine concrete ready layers against a device limit of 6
with reflective ocean and ocean waves both active. -/
theorem drawCommands_nineLayers_witness :
    addDrawCommandsForTileModel backgroundColor
        (computeMaxTextures 6 true true true) nineGoodImagery =
      some (Except.ok
        [⟨4, RenderStateKind.firstPassState, backgroundColor⟩,
         ⟨4, RenderStateKind.alphaBlend, otherPassesInitialColor⟩,
         ⟨1, RenderStateKind.alphaBlend, otherPassesInitialColor⟩]) :=
  drawCommands_nineLayers backgroundColor 6 true true true nineGoodImagery
    (by decide) (by decide)
    (fun ti hti => by
      have hq : ti = goodTileImagery := List.eq_of_mem_replicate hti
      subst hq
      exact ⟨⟨1, true, true⟩, rfl, by norm_num, rfl⟩)

/-- The remainder left by the packing loop is no longer than its input. -/
theorem packTextures_length (maxT : ℕ) :
    ∀ (l : List TileImageryModel) (n m : ℕ)
      (rest : List TileImageryModel),
      packTextures maxT n l = Except.ok (m, rest) →
      rest.length ≤ l.length := by
  intro l
  induction l with
  | nil =>
    intro n m rest h
    simp only [packTextures] at h
    obtain ⟨-, rfl⟩ : n = m ∧ [] = rest := by
      injection h with h'
      exact ⟨congrArg Prod.fst h', congrArg Prod.snd h'⟩
    simp
  | cons ti rest' ih =>
    intro n m rest h
    simp only [packTextures] at h
    by_cases hlt : n < maxT
    · rw [if_pos hlt] at h
      cases hri : ti.readyImagery with
      | none =>
        simp only [hri] at h
        exact le_trans (ih n m rest h) (by simp)
      | some im =>
        simp only [hri] at h
        by_cases hα : im.alpha = 0
        · rw [if_pos hα] at h
          exact le_trans (ih n m rest h) (by simp)
        · rw [if_neg hα] at h
          by_cases htex : selectedTexture ti im = true
          · rw [if_pos htex] at h
            exact le_trans (ih (n + 1) m rest h) (by simp)
          · rw [if_neg htex] at h
            simp at h
    · rw [if_neg hlt] at h
      obtain ⟨-, rfl⟩ : n = m ∧ ti :: rest' = rest := by
        injection h with h'
        exact ⟨congrArg Prod.fst h', congrArg Prod.snd h'⟩
      exact le_refl _

/-- A bad-entry-free list packs without raising, leaving a bad-entry-free
remainder. -/
theorem packTextures_noBad (maxT : ℕ) :
    ∀ (l : List TileImageryModel) (n : ℕ),
      (∀ ti ∈ l, badReadyImagery ti = false) →
      ∃ m rest, packTextures maxT n l = Except.ok (m, rest) ∧
        (∀ ti ∈ rest, badReadyImagery ti = false) := by
  intro l
  induction l with
  | nil =>
    intro n hg
    exact ⟨n, [], rfl, by simp⟩
  | cons ti rest' ih =>
    intro n hg
    have hrest : ∀ x ∈ rest', badReadyImagery x = false :=
      fun x hx => hg x (List.mem_cons_of_mem ti hx)
    by_cases hlt : n < maxT
    · cases hri : ti.readyImagery with
      | none =>
        obtain ⟨m, rest, hp, hr⟩ := ih n hrest
        refine ⟨m, rest, ?_, hr⟩
        simp only [packTextures, hri]
        rw [if_pos hlt]
        exact hp
      | some im =>
        by_cases hα : im.alpha = 0
        · obtain ⟨m, rest, hp, hr⟩ := ih n hrest
          refine ⟨m, rest, ?_, hr⟩
          simp only [packTextures, hri]
          rw [if_pos hlt, if_pos hα]
          exact hp
        · have hbad := hg ti (List.mem_cons_self ti rest')
          rw [badReadyImagery, hri] at hbad
          have htex : selectedTexture ti im = true := by
            simp [hα] at hbad
            exact hbad
          obtain ⟨m, rest, hp, hr⟩ := ih (n + 1) hrest
          refine ⟨m, rest, ?_, hr⟩
          simp only [packTextures, hri]
          rw [if_pos hlt, if_neg hα, if_pos htex]
          exact hp
    · refine ⟨n, ti :: rest', ?_, hg⟩
      simp only [packTextures]
      rw [if_neg hlt]

/-- A list containing a bad entry either raises inside the packing loop
or leaves the bad entry in the remainder. -/
theorem packTextures_bad (maxT : ℕ) :
    ∀ (l : List TileImageryModel) (n : ℕ),
      (∃ ti ∈ l, badReadyImagery ti = true) →
      packTextures maxT n l = Except.error DevError.readyImageryNotReady ∨
      ∃ m rest, packTextures maxT n l = Except.ok (m, rest) ∧
        ∃ ti ∈ rest, badReadyImagery ti = true := by
  intro l
  induction l with
  | nil =>
    intro n hex
    obtain ⟨ti, hti, -⟩ := hex
    simp at hti
  | cons ti rest' ih =>
    intro n hex
    by_cases hlt : n < maxT
    · cases hri : ti.readyImagery with
      | none =>
        have hb : badReadyImagery ti = false := by
          rw [badReadyImagery, hri]
        obtain ⟨tb, htb, hbad⟩ := hex
        have htb' : tb ∈ rest' := by
          rcases List.mem_cons.mp htb with rfl | hin
          · rw [hb] at hbad; cases hbad
          · exact hin
        have heq : packTextures maxT n (ti :: rest') =
            packTextures maxT n rest' := by
          simp only [packTextures, hri]
          rw [if_pos hlt]
        rw [heq]
        exact ih n ⟨tb, htb', hbad⟩
      | some im =>
        by_cases hα : im.alpha = 0
        · have hb : badReadyImagery ti = false := by
            rw [badReadyImagery, hri]
            simp [hα]
          obtain ⟨tb, htb, hbad⟩ := hex
          have htb' : tb ∈ rest' := by
            rcases List.mem_cons.mp htb with rfl | hin
            · rw [hb] at hbad; cases hbad
            · exact hin
          have heq : packTextures maxT n (ti :: rest') =
              packTextures maxT n rest' := by
            simp only [packTextures, hri]
            rw [if_pos hlt, if_pos hα]
          rw [heq]
          exact ih n ⟨tb, htb', hbad⟩
        · by_cases htex : selectedTexture ti im = true
          · have hb : badReadyImagery ti = false := by
              simp [badReadyImagery, hri, htex]
            obtain ⟨tb, htb, hbad⟩ := hex
            have htb' : tb ∈ rest' := by
              rcases List.mem_cons.mp htb with rfl | hin
              · rw [hb] at hbad; cases hbad
              · exact hin
            have heq : packTextures maxT n (ti :: rest') =
                packTextures maxT (n + 1) rest' := by
              simp only [packTextures, hri]
              rw [if_pos hlt, if_neg hα, if_pos htex]
            rw [heq]
            exact ih (n + 1) ⟨tb, htb', hbad⟩
          · left
            simp only [packTextures, hri]
            rw [if_pos hlt, if_neg hα, if_neg htex]
    · right
      refine ⟨n, ti :: rest', ?_, hex⟩
      simp only [packTextures]
      rw [if_neg hlt]

/-- With a nonzero budget, the packing loop always consumes the head. -/
theorem packTextures_progress (maxT : ℕ) (hmax : 1 ≤ maxT)
    (ti : TileImageryModel) (l : List TileImageryModel) (m : ℕ)
    (rest : List TileImageryModel)
    (h : packTextures maxT 0 (ti :: l) = Except.ok (m, rest)) :
    rest.length ≤ l.length := by
  simp only [packTextures] at h
  rw [if_pos (by omega : 0 < maxT)] at h
  cases hri : ti.readyImagery with
  | none =>
    simp only [hri] at h
    exact packTextures_length maxT l 0 m rest h
  | some im =>
    simp only [hri] at h
    by_cases hα : im.alpha = 0
    · rw [if_pos hα] at h
      exact packTextures_length maxT l 0 m rest h
    · rw [if_neg hα] at h
      by_cases htex : selectedTexture ti im = true
      · rw [if_pos htex] at h
        exact packTextures_length maxT l 1 m rest h
      · rw [if_neg htex] at h
        simp at h

/-- A bad-entry-free imagery list always assembles successfully. -/
theorem emitCommands_noBad (maxT : ℕ) (hmax : 1 ≤ maxT) :
    ∀ (fuel : ℕ) (l : List TileImageryModel) (rs : RenderStateKind)
      (ic : Cartesian4Q),
      l.length < fuel →
      (∀ ti ∈ l, badReadyImagery ti = false) →
      ∃ cmds, emitCommands maxT fuel rs ic l = some (Except.ok cmds) := by
  intro fuel
  induction fuel with
  | zero => intro l rs ic hlen hg; omega
  | succ f ih =>
    intro l rs ic hlen hg
    obtain ⟨m, rest, hpack, hrg⟩ := packTextures_noBad maxT l 0 hg
    cases hre : rest.isEmpty with
    | true =>
      refine ⟨[⟨m, rs, ic⟩], ?_⟩
      rw [emitCommands_unfold, hpack]
      simp [hre]
    | false =>
      have hne : rest ≠ [] := by
        intro hc
        rw [hc] at hre
        simp at hre
      obtain ⟨x, xs, rfl⟩ : ∃ x xs, l = x :: xs := by
        cases l with
        | nil =>
          exfalso
          apply hne
          simp only [packTextures] at hpack
          injection hpack with h'
          exact (congrArg Prod.snd h').symm
        | cons x xs => exact ⟨x, xs, rfl⟩
      have hprog := packTextures_progress maxT hmax x xs m rest hpack
      have hrlen : rest.length < f := by
        simp only [List.length_cons] at hlen
        omega
      obtain ⟨cmds, hc⟩ := ih rest RenderStateKind.alphaBlend
        otherPassesInitialColor hrlen hrg
      refine ⟨⟨m, rs, ic⟩ :: cmds, ?_⟩
      rw [emitCommands_unfold, hpack]
      simp [hre, hc]

/-- An imagery list with a bad entry always raises the DeveloperError. -/
theorem emitCommands_bad (maxT : ℕ) (hmax : 1 ≤ maxT) :
    ∀ (fuel : ℕ) (l : List TileImageryModel) (rs : RenderStateKind)
      (ic : Cartesian4Q),
      l.length < fuel →
      (∃ ti ∈ l, badReadyImagery ti = true) →
      emitCommands maxT fuel rs ic l =
        some (Except.error DevError.readyImageryNotReady) := by
  intro fuel
  induction fuel with
  | zero => intro l rs ic hlen hex; omega
  | succ f ih =>
    intro l rs ic hlen hex
    rcases packTextures_bad maxT l 0 hex with herr | ⟨m, rest, hpack, hbr⟩
    · rw [emitCommands_unfold, herr]
    · obtain ⟨x, xs, rfl⟩ : ∃ x xs, l = x :: xs := by
        cases l with
        | nil =>
          obtain ⟨tb, htb, -⟩ := hex
          simp at htb
        | cons x xs => exact ⟨x, xs, rfl⟩
      have hne : rest ≠ [] := by
        obtain ⟨tb, htb, -⟩ := hbr
        intro hc
        rw [hc] at htb
        simp at htb
      have hre : rest.isEmpty = false := by
        cases rest with
        | nil => exact absurd rfl hne
        | cons a b => rfl
      have hprog := packTextures_progress maxT hmax x xs m rest hpack
      have hrlen : rest.length < f := by
        simp only [List.length_cons] at hlen
        omega
      have hrec := ih rest RenderStateKind.alphaBlend
        otherPassesInitialColor hrlen hbr
      rw [emitCommands_unfold, hpack]
      simp [hre, hrec]

/-- C9: Ready-texture assertion: with at least one texture slot in the
budget, draw-command assembly raises the fatal DeveloperError exactly
when some TileImagery has defined ready imagery with nonzero layer alpha
but no texture in its selected form; when every counted ready imagery
carries its selected texture, assembly completes without raising. -/
theorem readyImagery_assertion :
    (∀ (bg : Cartesian4Q) (maxT : ℕ) (l : List TileImageryModel),
      1 ≤ maxT → (∃ ti ∈ l, badReadyImagery ti = true) →
      addDrawCommandsForTileModel bg maxT l =
        some (Except.error DevError.readyImageryNotReady)) ∧
    (∀ (bg : Cartesian4Q) (maxT : ℕ) (l : List TileImageryModel),
      1 ≤ maxT → (∀ ti ∈ l, badReadyImagery ti = false) →
      ∃ cmds, addDrawCommandsForTileModel bg maxT l =
        some (Except.ok cmds)) := by
  constructor
  · intro bg maxT l hm hex
    exact emitCommands_bad maxT hm (l.length + 1) l
      RenderStateKind.firstPassState bg (by omega) hex
  · intro bg maxT l hm hg
    exact emitCommands_noBad maxT hm (l.length + 1) l
      RenderStateKind.firstPassState bg (by omega) hg

/-- C9 witness: a single ready-but-textureless entry raises; a single
fully ready entry assembles. -/
theorem readyImagery_assertion_witness :
    addDrawCommandsForTileModel backgroundColor 4 [badTileImagery] =
      some (Except.error DevError.readyImageryNotReady) ∧
    ∃ cmds, addDrawCommandsForTileModel backgroundColor 4 [goodTileImagery] =
      some (Except.ok cmds) := by
  constructor
  · exact readyImagery_assertion.1 backgroundColor 4 [badTileImagery]
      (by norm_num) ⟨badTileImagery, by simp, by decide⟩
  · exact readyImagery_assertion.2 backgroundColor 4 [goodTileImagery]
      (by norm_num) (by decide)

/-- One unfolding step of `follow`. -/
theorem follow_succ (f : ℕ → Option ℕ) (x n : ℕ) :
    follow f x (n + 1) =
      match f x with
      | none => none
      | some y => follow f y n := rfl

theorem setRef_apply (f : ℕ → Option ℕ) (t y z : ℕ) :
    setRef f t y z =
      if z = y then none else if z = t then some y else f z := rfl

theorem clearRef_apply (f : ℕ → Option ℕ) (t z : ℕ) :
    clearRef f t z = if z = t then none else f z := rfl

/-- Removing one tile's back-reference cannot create a chain that the
original state lacked. -/
theorem follow_clear (f : ℕ → Option ℕ) (t : ℕ) :
    ∀ (n x z : ℕ),
      follow (clearRef f t) x n = some z → follow f x n = some z := by
  intro n
  induction n with
  | zero => intro x z h; exact h
  | succ m ih =>
    intro x z h
    rw [follow_succ, clearRef_apply] at h
    rw [follow_succ]
    by_cases hx : x = t
    · rw [if_pos hx] at h
      exact Option.noConfusion h
    · rw [if_neg hx] at h
      cases hfx : f x with
      | none =>
        rw [hfx] at h
        exact Option.noConfusion h
      | some y =>
        rw [hfx] at h
        exact ih y z h

/-- After pointing tile t at nearest renderable y (and clearing y), every
chain either ends at y or already existed. -/
theorem follow_set (f : ℕ → Option ℕ) (t y : ℕ) :
    ∀ (n x z : ℕ),
      follow (setRef f t y) x (n + 1) = some z →
      z = y ∨ follow f x (n + 1) = some z := by
  intro n
  induction n with
  | zero =>
    intro x z h
    rw [follow_succ, setRef_apply] at h
    by_cases hxy : x = y
    · rw [if_pos hxy] at h
      exact Option.noConfusion h
    · rw [if_neg hxy] at h
      by_cases hxt : x = t
      · rw [if_pos hxt] at h
        exact Or.inl (Option.some.inj h).symm
      · rw [if_neg hxt] at h
        cases hfx : f x with
        | none =>
          rw [hfx] at h
          exact Option.noConfusion h
        | some w =>
          rw [hfx] at h
          right
          rw [follow_succ, hfx]
          exact h
  | succ m ih =>
    intro x z h
    rw [follow_succ, setRef_apply] at h
    by_cases hxy : x = y
    · rw [if_pos hxy] at h
      exact Option.noConfusion h
    · rw [if_neg hxy] at h
      by_cases hxt : x = t
      · rw [if_pos hxt] at h
        have h2 : follow (setRef f t y) y (m + 1) = some z := h
        rw [follow_succ, setRef_apply, if_pos rfl] at h2
        exact Option.noConfusion h2
      · rw [if_neg hxt] at h
        cases hfx : f x with
        | none =>
          rw [hfx] at h
          exact Option.noConfusion h
        | some w =>
          rw [hfx] at h
          have h2 : follow (setRef f t y) w (m + 1) = some z := h
          rcases ih w z h2 with hzy | hfol
          · exact Or.inl hzy
          · right
            rw [follow_succ, hfx]
            exact hfol

theorem acyclic_clear (f : ℕ → Option ℕ) (t : ℕ) (hf : Acyclic f) :
    Acyclic (clearRef f t) := by
  intro x n hn h
  exact hf x n hn (follow_clear f t n x x h)

theorem acyclic_set (f : ℕ → Option ℕ) (t y : ℕ) (hf : Acyclic f) :
    Acyclic (setRef f t y) := by
  intro x n hn h
  obtain ⟨m, rfl⟩ : ∃ m, n = m + 1 := ⟨n - 1, by omega⟩
  rcases follow_set f t y m x x h with hxy | hfol
  · subst hxy
    rw [follow_succ, setRef_apply, if_pos rfl] at h
    exact Option.noConfusion h
  · exact hf x (m + 1) (by omega) hfol

theorem acyclic_showTileUpdate (f : ℕ → Option ℕ) (t : ℕ)
    (nrt : Option ℕ) (hf : Acyclic f) :
    Acyclic (showTileUpdate f t nrt) := by
  cases nrt with
  | none => exact acyclic_clear f t hf
  | some nid =>
    show Acyclic (if nid ≠ t then setRef f t nid else clearRef f t)
    by_cases hne : nid ≠ t
    · rw [if_pos hne]
      exact acyclic_set f t nid hf
    · rw [if_neg hne]
      exact acyclic_clear f t hf

theorem acyclic_runShows :
    ∀ (cmds : List (ℕ × Option ℕ)) (f : ℕ → Option ℕ),
      Acyclic f → Acyclic (runShows cmds f) := by
  intro cmds
  induction cmds with
  | nil => intro f hf; exact hf
  | cons c cs ih =>
    intro f hf
    show Acyclic (runShows cs (showTileUpdate f c.1 c.2))
    exact ih _ (acyclic_showTileUpdate f c.1 c.2 hf)

theorem acyclic_initial : Acyclic initialRefs := by
  intro x n hn h
  obtain ⟨m, rfl⟩ : ∃ m, n = m + 1 := ⟨n - 1, by omega⟩
  rw [follow_succ] at h
  exact Option.noConfusion h

/-- C6 (amended): whenever `showTileThisFrame` sets a tile's renderable
back-reference to a (different) nearest renderable tile, it
simultaneously clears that tile's own back-reference; hence no sequence
of calls ever creates a cycle of back-references.  (The claimed "no chain
longer than one hop" does not hold — see the counterexample, where a
stale earlier reference forms a two-hop chain.) -/
theorem renderableRefs_amended :
    (∀ (f : ℕ → Option ℕ) (t nid : ℕ), nid ≠ t →
      showTileUpdate f t (some nid) t = some nid ∧
      showTileUpdate f t (some nid) nid = none) ∧
    (∀ cmds : List (ℕ × Option ℕ), Acyclic (runShows cmds initialRefs)) := by
  constructor
  · intro f t nid hne
    constructor
    · simp [showTileUpdate, setRef, hne, Ne.symm hne]
    · simp [showTileUpdate, setRef, hne]
  · intro cmds
    exact acyclic_runShows cmds initialRefs acyclic_initial

/-- C6 witness: one call setting tile 1's reference to ancestor 0 clears
0's reference, and short call sequences stay acyclic. -/
theorem renderableRefs_witness :
    showTileUpdate initialRefs 1 (some 0) 1 = some 0 ∧
    showTileUpdate initialRefs 1 (some 0) 0 = none ∧
    Acyclic (runShows [(1, some 0)] initialRefs) := by
  obtain ⟨h1, h2⟩ := renderableRefs_amended.1 initialRefs 1 0 (by norm_num)
  exact ⟨h1, h2, renderableRefs_amended.2 [(1, some 0)]⟩

/-- C6 counterexample: showing tile 1 against renderable ancestor 0, then
tile 0 against its own renderable ancestor 2, leaves the stale reference
1 → 0 in place next to the new reference 0 → 2 — a two-hop chain, so the
claimed one-hop invariant fails after this call sequence. -/
theorem renderableRefs_counterexample :
    chainedRefs 1 = some 0 ∧ chainedRefs 0 = some 2 ∧
    ¬ OneHopOnly chainedRefs := by
  refine ⟨by decide, by decide, fun h => ?_⟩
  exact absurd (h 1 0 (by decide)) (by decide)

end Cesium
